import Mathlib

/-!
Verification of the quiz-backend room/session state machine.

The definitions below are a shallow embedding of `src/server.js` (the
variant before the document separator is the primary authority; the
variant after the separator is embedded separately where it differs,
see `endCurrentQuestionV2`).  Socket-level effects are made explicit:

* `World` holds the room registry (`rooms`, a JS object keyed by room
  code), the set of pending timer callbacks (`timers`, each entry a
  `setTimeout`/`setInterval` handle paired with what its closure does),
  and the set of currently connected socket ids (`live`, the model of
  `io.sockets.sockets`).
* Each socket event handler becomes a function `World → World × List Ev`
  returning the mutated world and the list of `io.emit` broadcasts it
  performed, in order.
* Wall-clock time (`Date.now()`) is passed in explicitly as an integer
  number of milliseconds and `timeLimit` is an integer number of seconds;
  the handler's float arithmetic on these quantities is exact rational
  arithmetic, and the one float expression whose floor is taken
  (`500 + (timeLeft / timeLimit) * 500`) is embedded as the equal
  integer floor-division expression (see `scoreFor` and
  `scoreFor_eq_floor`).
-/

namespace QuizServer

/-- A player record `{id, name, score}` as pushed by the join-room handler. -/
structure Player where
  id : String
  name : String
  score : Int
deriving DecidableEq, Repr

/-- A question after ingestion by the send-multiple-questions handler. -/
structure Question where
  text : String
  options : List String
  correct : String
  timeLimit : ℤ
deriving DecidableEq, Repr

/-- A question as supplied by the host, before ingestion; `correct` may be
absent (JS `undefined`). -/
structure QuestionIn where
  text : String
  options : List String
  correct : Option String
  timeLimit : ℤ
deriving DecidableEq, Repr

/-- What a pending timer callback does when it fires.  `deadline` is the
per-question `setTimeout` stored in `room.timer` (its closure captures the
question's `correct` text and, for the case where the room was deleted
before firing, the interval handle it would clear); `countdown` is the
`setInterval` stored in `room.countdownInterval` carrying its remaining
`timeLeft` counter; `endQ` and `nextQ` are the anonymous
`setTimeout(() => endCurrentQuestion(...))` / `setTimeout(() =>
startNextQuestion(...))` callbacks; `delayedEnd` is the second variant's
8-second finalization `setTimeout` capturing the sorted leaderboard. -/
inductive TimerAction where
  | deadline (code : String) (correct : String) (cdId : Nat)
  | countdown (code : String) (timeLeft : ℤ)
  | endQ (code : String)
  | nextQ (code : String)
  | delayedEnd (code : String) (sorted : List Player)
deriving DecidableEq, Repr

/-- The per-room session object created by the create-room handler.
`timerId`/`countdownId` model the JS fields `timer`/`countdownInterval`
holding the handles of the armed deadline timeout and countdown interval
(`none` for JS `null`/`undefined`).  `questionStartTime` and
`firstCorrectAnswered` are `undefined` until the first question starts;
they are modelled with the defaults `0` and `false`, which is how the
handlers read them. -/
structure Room where
  hostId : String
  players : List Player
  questions : List Question
  currentIndex : Nat
  answeredPlayers : List String
  timerId : Option Nat
  countdownId : Option Nat
  quizStarted : Bool
  maxPlayers : Nat
  questionStartTime : ℤ
  firstCorrectAnswered : Bool
deriving DecidableEq, Repr

/-- Broadcasts performed via `io.emit`/`socket.emit`, in emission order. -/
inductive Ev where
  | roomCreated (code : String)
  | roomError (msg : String)
  | roomFull (msg : String)
  | lobbyUpdate (players : List Player) (maxPlayers : Nat)
  | questionEv (q : Question)
  | timeLeftEv (n : ℤ)
  | allAnswered (correct : String)
  | questionEnded
  | leaderboard (ps : List Player)
  | finalLeaderboard (ps : List Player)
  | quizEnd
  | kicked
deriving DecidableEq, Repr

/-- The server's global mutable state: the `rooms` registry object, the
pending timer callbacks with their numeric handles, the next fresh timer
handle, and the connected socket ids (`io.sockets.sockets`). -/
structure World where
  rooms : List (String × Room)
  timers : List (Nat × TimerAction)
  nextTimerId : Nat
  live : List String
deriving DecidableEq, Repr

/-- Lookup `rooms[code]` in the registry. -/
def getRoom (code : String) : List (String × Room) → Option Room
  | [] => none
  | (c, r) :: rest => if c = code then some r else getRoom code rest

/-- In-place mutation of the room object bound to `code`. -/
def updRoom (code : String) (r' : Room) : List (String × Room) → List (String × Room)
  | [] => []
  | (c, r) :: rest =>
    if c = code then (c, r') :: updRoom code r' rest
    else (c, r) :: updRoom code r' rest

/-- JS `delete rooms[code]`. -/
def delRoom (code : String) (rs : List (String × Room)) :
    List (String × Room) :=
  rs.filter fun e => e.1 ≠ code

/-- Lookup a pending timer by its handle. -/
def getTimer (tid : Nat) : List (Nat × TimerAction) → Option TimerAction
  | [] => none
  | (i, a) :: rest => if i = tid then some a else getTimer tid rest

/-- JS `clearTimeout(h)` / `clearInterval(h)`: drop the pending callback
with handle `h`; a `null` handle or an already-fired handle is a no-op. -/
def clearTimer : Option Nat → List (Nat × TimerAction) → List (Nat × TimerAction)
  | none, ts => ts
  | some i, ts => ts.filter fun t => t.1 ≠ i

/-- JS `Set.prototype.add`. -/
def setAdd (s : String) (l : List String) : List String :=
  if s ∈ l then l else l ++ [s]

/-- JS `Set.prototype.delete`. -/
def setDelete (s : String) (l : List String) : List String :=
  l.filter fun x => x ≠ s

/-- JS `String.prototype.toLowerCase` (character-by-character lowering;
exact for the ASCII strings this server compares). -/
def lowerStr (s : String) : String := String.mk (s.data.map Char.toLower)

/-- JS `String.prototype.trim`: strip leading and trailing whitespace. -/
def trimStr (s : String) : String :=
  String.mk (((s.data.dropWhile Char.isWhitespace).reverse.dropWhile
    Char.isWhitespace).reverse)

/-- The name normalization of the join handler: `name.toLowerCase().trim()`. -/
def normName (s : String) : String := trimStr (lowerStr s)

/-- The option normalization of the answer handler: `option.trim().toLowerCase()`. -/
def normOpt (s : String) : String := lowerStr (trimStr s)

/-- The answer handler's correctness test (`server.js` line 103). -/
def isCorrectOpt (opt correct : String) : Bool := normOpt opt == normOpt correct

/-- Ingestion of `q.correct` by send-multiple-questions:
`q.correct?.trim() || 'N/A'` (absent or whitespace-only collapses to the
`'N/A'` sentinel). -/
def ingestCorrect : Option String → String
  | none => "N/A"
  | some c => if trimStr c = "" then "N/A" else trimStr c

/-- Ingestion of a whole question by send-multiple-questions. -/
def ingestQuestion (q : QuestionIn) : Question :=
  { text := q.text, options := q.options, correct := ingestCorrect q.correct,
    timeLimit := q.timeLimit }

/-- Insert a player into a list that is sorted by strictly descending
score, before the first entry whose score is not greater — the placement
produced by JS's stable `sort((a, b) => b.score - a.score)`. -/
def insertDesc (p : Player) : List Player → List Player
  | [] => [p]
  | q :: qs => if q.score > p.score then q :: insertDesc p qs else p :: q :: qs

/-- JS `[...players].sort((a, b) => b.score - a.score)`: stable sort
descending by score, ties in original roster order. -/
def sortByScoreDesc : List Player → List Player
  | [] => []
  | p :: ps => insertDesc p (sortByScoreDesc ps)

/-- `player.score += amt` applied to the player object returned by
`players.find(p => p.id === sid)` — i.e. the first roster entry with
that id. -/
def addScoreFirst (sid : String) (amt : Int) : List Player → List Player
  | [] => []
  | p :: ps =>
    if p.id == sid then { p with score := p.score + amt } :: ps
    else p :: addScoreFirst sid amt ps

/-- The exact value of the handler's float expression
`500 + (timeLeft / timeLimit) * 500` with
`timeLeft = timeLimit - (now - questionStartTime) / 1000`, as a rational,
in terms of the elapsed milliseconds and the time limit in seconds. -/
def scoreExprRat (elapsedMs timeLimit : ℤ) : ℚ :=
  500 + ((timeLimit : ℚ) - (elapsedMs : ℚ) / 1000) / (timeLimit : ℚ) * 500

/-- The score decided by the answer handler (lines 105-115): a flat 1000
for the first correct answer of the question, otherwise
`Math.floor(500 + (timeLeft / timeLimit) * 500)`, here written as the
equal integer floor-division expression (the identity with the floored
rational `scoreExprRat` is the lemma `scoreFor_eq_floor` below). -/
def scoreFor (firstCorrectAnswered : Bool) (elapsedMs timeLimit : ℤ) : Int :=
  if firstCorrectAnswered then
    500 + 500 * (1000 * timeLimit - elapsedMs) / (1000 * timeLimit)
  else 1000

/-- `maxPlayers || 10` (an absent or zero value is falsy). -/
def defaultMaxPlayers : Option Nat → Nat
  | none => 10
  | some 0 => 10
  | some n => n

/-- The fresh room object built by the create-room handler. -/
def freshRoom (hostId : String) (maxP : Option Nat) : Room :=
  { hostId := hostId, players := [], questions := [], currentIndex := 0,
    answeredPlayers := [], timerId := none, countdownId := none,
    quizStarted := false, maxPlayers := defaultMaxPlayers maxP,
    questionStartTime := 0, firstCorrectAnswered := false }

/-- The create-room handler: create the session only if the code is
fresh; always answer with room-created. -/
def createRoomW (sid code : String) (maxP : Option Nat) (w : World) :
    World × List Ev :=
  match getRoom code w.rooms with
  | some _ => (w, [Ev.roomCreated code])
  | none =>
    ({ w with rooms := w.rooms ++ [(code, freshRoom sid maxP)] },
     [Ev.roomCreated code])

/-- The room-level body of the join-room handler, after the existence and
host checks: prune dead connections (this reassignment persists even when
the join is then rejected), reject when full, reject on duplicate
normalized name, otherwise append the new player with score 0. -/
def joinCore (sid name : String) (live : List String) (r : Room) :
    Room × List Ev :=
  let pruned := r.players.filter fun p => live.contains p.id
  if pruned.length ≥ r.maxPlayers then
    ({ r with players := pruned }, [Ev.roomFull "Room is full."])
  else if pruned.any fun p => normName p.name == normName name then
    ({ r with players := pruned }, [Ev.roomError "Name already taken."])
  else
    let ps := pruned ++ [{ id := sid, name := name, score := 0 }]
    ({ r with players := ps }, [Ev.lobbyUpdate ps r.maxPlayers])

/-- The join-room handler. -/
def joinRoomW (sid name code : String) (w : World) : World × List Ev :=
  match getRoom code w.rooms with
  | none => (w, [Ev.roomError "Room does not exist."])
  | some r =>
    if sid = r.hostId then (w, [])
    else
      let res := joinCore sid name w.live r
      ({ w with rooms := updRoom code res.1 w.rooms }, res.2)

/-- The send-multiple-questions handler. -/
def sendQuestionsW (code : String) (qs : List QuestionIn) (w : World) :
    World × List Ev :=
  match getRoom code w.rooms with
  | none => (w, [])
  | some r =>
    let r' := { r with questions := qs.map ingestQuestion, currentIndex := 0 }
    ({ w with rooms := updRoom code r' w.rooms }, [])

/-- `startNextQuestion` (primary variant, lines 190-228): when all
questions are exhausted, broadcast the top-5 leaderboard and quiz-end
and return (the room is NOT deleted); otherwise reset the per-question
state, broadcast the question and arm the countdown interval and the
deadline timeout. -/
def startNextQuestionW (code : String) (now : ℤ) (w : World) :
    World × List Ev :=
  match getRoom code w.rooms with
  | none => (w, [])
  | some r =>
    if r.currentIndex ≥ r.questions.length then
      (w, [Ev.finalLeaderboard ((sortByScoreDesc r.players).take 5),
           Ev.quizEnd])
    else
      match r.questions[r.currentIndex]? with
      | none => (w, [])
      | some q =>
        let cdId := w.nextTimerId
        let dlId := w.nextTimerId + 1
        let timeLeft0 : ℤ := if q.timeLimit = 0 then 15 else q.timeLimit
        let r' := { r with answeredPlayers := [], firstCorrectAnswered := false,
                           questionStartTime := now,
                           countdownId := some cdId, timerId := some dlId }
        ({ w with rooms := updRoom code r' w.rooms,
                  timers := w.timers ++
                    [(cdId, TimerAction.countdown code timeLeft0),
                     (dlId, TimerAction.deadline code q.correct cdId)],
                  nextTimerId := w.nextTimerId + 2 },
         [Ev.questionEv q])

/-- The start-quiz handler (primary variant): set `quizStarted` and begin
the auto-advancing question flow. -/
def startQuizW (code : String) (now : ℤ) (w : World) : World × List Ev :=
  match getRoom code w.rooms with
  | none => (w, [])
  | some r =>
    startNextQuestionW code now
      { w with rooms := updRoom code { r with quizStarted := true } w.rooms }

/-- The answer handler (lines 93-132): guard on room, player, current
question and duplicate submission; record the identity as answered; on a
correct answer add the computed score to the submitting player; when every
roster member has now answered, cancel both per-question timers, reveal
the correct option and schedule `endCurrentQuestion` 2.5 s later. -/
def answerW (sid opt code : String) (now : ℤ) (w : World) : World × List Ev :=
  match getRoom code w.rooms with
  | none => (w, [])
  | some r =>
    match r.players.find? (fun p => p.id == sid),
          r.questions[r.currentIndex]? with
    | some _, some q =>
      if sid ∈ r.answeredPlayers then (w, [])
      else
        let answered := setAdd sid r.answeredPlayers
        let amt := scoreFor r.firstCorrectAnswered
          (now - r.questionStartTime) q.timeLimit
        let correct := isCorrectOpt opt q.correct
        let players' := if correct then addScoreFirst sid amt r.players
                        else r.players
        let first' := if correct then true else r.firstCorrectAnswered
        let r' := { r with answeredPlayers := answered, players := players',
                           firstCorrectAnswered := first' }
        if answered.length = players'.length then
          ({ w with rooms := updRoom code r' w.rooms,
                    timers := clearTimer r.countdownId
                        (clearTimer r.timerId w.timers) ++
                        [(w.nextTimerId, TimerAction.endQ code)],
                    nextTimerId := w.nextTimerId + 1 },
           [Ev.allAnswered q.correct])
        else
          ({ w with rooms := updRoom code r' w.rooms }, [])
    | _, _ => (w, [])

/-- The per-room sweep of the disconnect handler (lines 162-186): the
host's room is deleted outright (timers untouched); a room where the
identity is a player drops it from the roster and from `answeredPlayers`
and broadcasts the updated lobby; other rooms are untouched. -/
def disconnectRooms (sid : String) :
    List (String × Room) → List (String × Room) × List Ev
  | [] => ([], [])
  | (c, r) :: rest =>
    let res := disconnectRooms sid rest
    if r.hostId = sid then res
    else
      match r.players.find? (fun p => p.id == sid) with
      | some _ =>
        let r' := { r with
          players := r.players.filter fun p => p.id != sid,
          answeredPlayers := setDelete sid r.answeredPlayers }
        ((c, r') :: res.1,
         Ev.lobbyUpdate r'.players r.maxPlayers :: res.2)
      | none => ((c, r) :: res.1, res.2)

/-- The disconnect handler, plus the transport effect of the socket
leaving `io.sockets.sockets`. -/
def disconnectW (sid : String) (w : World) : World × List Ev :=
  let res := disconnectRooms sid w.rooms
  ({ w with rooms := res.1, live := setDelete sid w.live }, res.2)

/-- The kick-player handler (lines 134-146): filter the target out of the
roster, broadcast the lobby, notify the target, then
`io.sockets.sockets.get(playerId)?.disconnect(true)` — which, when the
target socket is still connected, fires its disconnect handler. -/
def kickPlayerW (code pid : String) (w : World) : World × List Ev :=
  match getRoom code w.rooms with
  | none => (w, [])
  | some r =>
    let r' := { r with players := r.players.filter fun p => p.id != pid }
    let w1 := { w with rooms := updRoom code r' w.rooms }
    let evs := [Ev.lobbyUpdate r'.players r.maxPlayers, Ev.kicked]
    if pid ∈ w1.live then
      let res := disconnectW pid w1
      (res.1, evs ++ res.2)
    else (w1, evs)

/-- The end-quiz handler: cancel the stored per-question timers, broadcast
the top-5 leaderboard and quiz-end, delete the session. -/
def endQuizW (code : String) (w : World) : World × List Ev :=
  match getRoom code w.rooms with
  | none => (w, [])
  | some r =>
    ({ w with rooms := delRoom code w.rooms,
              timers := clearTimer r.countdownId
                (clearTimer r.timerId w.timers) },
     [Ev.finalLeaderboard ((sortByScoreDesc r.players).take 5), Ev.quizEnd])

/-- `endCurrentQuestion` (primary variant, lines 230-241): broadcast
question-ended and a full leaderboard, advance `currentIndex`, schedule
`startNextQuestion` 5 s later. -/
def endCurrentQuestionW (code : String) (w : World) : World × List Ev :=
  match getRoom code w.rooms with
  | none => (w, [])
  | some r =>
    let sorted := sortByScoreDesc r.players
    ({ w with rooms := updRoom code { r with currentIndex := r.currentIndex + 1 } w.rooms,
              timers := w.timers ++ [(w.nextTimerId, TimerAction.nextQ code)],
              nextTimerId := w.nextTimerId + 1 },
     [Ev.questionEnded, Ev.leaderboard sorted])

/-- `endCurrentQuestion` of the second variant embedded in `server.js`
after the separator (its lines 476-496): same reveal and leaderboard, but
when the just-finished question was the last one it schedules an 8-second
finalization that broadcasts the final leaderboard and quiz-end and
deletes the session; it never schedules `startNextQuestion` (that variant
is host-paced). -/
def endCurrentQuestionV2 (code : String) (w : World) : World × List Ev :=
  match getRoom code w.rooms with
  | none => (w, [])
  | some r =>
    let sorted := sortByScoreDesc r.players
    let r' := { r with currentIndex := r.currentIndex + 1 }
    if r.currentIndex + 1 ≥ r.questions.length then
      ({ w with rooms := updRoom code r' w.rooms,
                timers := w.timers ++
                  [(w.nextTimerId, TimerAction.delayedEnd code sorted)],
                nextTimerId := w.nextTimerId + 1 },
       [Ev.questionEnded, Ev.leaderboard sorted])
    else
      ({ w with rooms := updRoom code r' w.rooms },
       [Ev.questionEnded, Ev.leaderboard sorted])

/-- The event-loop firing a pending timer callback.  A handle that is no
longer pending (cancelled or already fired) is a no-op.  The deadline
callback mirrors lines 218-227: clear the countdown interval (through the
captured room object), reveal `question.correct || 'N/A'`, and schedule
`endCurrentQuestion` 2.5 s later — note it never re-checks the phase. -/
def fireTimerW (tid : Nat) (now : ℤ) (w : World) : World × List Ev :=
  match getTimer tid w.timers with
  | none => (w, [])
  | some act =>
    let w1 := { w with timers := w.timers.filter fun t => t.1 ≠ tid }
    match act with
    | TimerAction.countdown code n =>
      let n' := n - 1
      if n' ≤ 0 then (w1, [Ev.timeLeftEv n'])
      else
        ({ w1 with timers := w1.timers ++ [(tid, TimerAction.countdown code n')] },
         [Ev.timeLeftEv n'])
    | TimerAction.deadline code correct cdId =>
      let cd := match getRoom code w1.rooms with
                | some r => r.countdownId
                | none => some cdId
      let w2 := { w1 with timers := clearTimer cd w1.timers }
      ({ w2 with timers := w2.timers ++ [(w2.nextTimerId, TimerAction.endQ code)],
                 nextTimerId := w2.nextTimerId + 1 },
       [Ev.allAnswered (if correct = "" then "N/A" else correct)])
    | TimerAction.endQ code => endCurrentQuestionW code w1
    | TimerAction.nextQ code => startNextQuestionW code now w1
    | TimerAction.delayedEnd code sorted =>
      ({ w1 with rooms := delRoom code w1.rooms },
       [Ev.finalLeaderboard sorted, Ev.quizEnd])

/-! Concrete executions of the embedded handlers, used to settle the
claims on explicit inputs.  `initW` is a fresh server with three
connected sockets: `"H"` (the host) and the players `"A"` and `"B"`. -/

/-- A fresh server with connected sockets `H`, `A`, `B`. -/
def initW : World := { rooms := [], timers := [], nextTimerId := 0, live := ["H", "A", "B"] }

/-- A one-question quiz payload with the given time limit and correct
option. -/
def demoQ (tl : ℤ) (c : Option String) : List QuestionIn :=
  [{ text := "Q1", options := ["x", "y"], correct := c, timeLimit := tl }]

/-- Room `R` created by `H`, joined by `A` and `B`, loaded with the
one-question quiz, quiz started at t = 0 ms. -/
def setup2 (tl : ℤ) (c : Option String) : World :=
  let w1 := (createRoomW "H" "R" none initW).1
  let w2 := (joinRoomW "A" "Ann" "R" w1).1
  let w3 := (joinRoomW "B" "Bo" "R" w2).1
  let w4 := (sendQuestionsW "R" (demoQ tl c) w3).1
  (startQuizW "R" 0 w4).1

/-- Like `setup2` but only `A` joins. -/
def setup1 (tl : ℤ) (c : Option String) : World :=
  let w1 := (createRoomW "H" "R" none initW).1
  let w2 := (joinRoomW "A" "Ann" "R" w1).1
  let w3 := (sendQuestionsW "R" (demoQ tl c) w2).1
  (startQuizW "R" 0 w3).1

/-- The room value of `setup2 10 (some "x")`, for use as an explicit
instantiation in witnesses. -/
def demoRoom : Room :=
  { hostId := "H",
    players := [{ id := "A", name := "Ann", score := 0 },
                { id := "B", name := "Bo", score := 0 }],
    questions := [{ text := "Q1", options := ["x", "y"], correct := "x",
                    timeLimit := 10 }],
    currentIndex := 0, answeredPlayers := [], timerId := some 1,
    countdownId := some 0, quizStarted := true, maxPlayers := 10,
    questionStartTime := 0, firstCorrectAnswered := false }

/-- Claim C2 run, step 1: `A` answers correctly at t = 1 s (one of two
players — no lock yet). -/
def c2afterA : World := (answerW "A" "x" "R" 1000 (setup2 10 (some "x"))).1

/-- Claim C2 run, step 2: the deadline timer (handle 1) fires at t = 10 s. -/
def c2deadlineStep : World × List Ev := fireTimerW 1 10000 c2afterA

/-- Claim C2 run, step 3: `B`'s answer arrives at t = 11 s, during the
2.5-second reveal window opened by the deadline. -/
def c2lateStep : World × List Ev := answerW "B" "x" "R" 11000 c2deadlineStep.1

/-- Claim C2 run, step 4: the `endCurrentQuestion` scheduled by the
deadline (handle 2) fires. -/
def c2end1 : World × List Ev := fireTimerW 2 12500 c2lateStep.1

/-- Claim C2 run, step 5: the second `endCurrentQuestion`, scheduled by
the all-answered branch (handle 3), fires as well. -/
def c2end2 : World × List Ev := fireTimerW 3 13500 c2end1.1

/-- Claim C3 run: a 1-second question; `A` answers first at t = 0. -/
def c3afterA : World := (answerW "A" "x" "R" 0 (setup2 1 (some "x"))).1

/-- Claim C3 run: the deadline fires at t = 1 s. -/
def c3afterDl : World := (fireTimerW 1 1000 c3afterA).1

/-- Claim C3 run: `B` answers correctly at t = 3 s, still inside the
reveal window (`endCurrentQuestion` is due at t = 3.5 s). -/
def c3final : World := (answerW "B" "x" "R" 3000 c3afterDl).1

/-- Claim C4 run: `A` answers at t = 1 s, then the host kicks `A`. -/
def c4afterKick : World :=
  (kickPlayerW "R" "A" (answerW "A" "x" "R" 1000 (setup2 10 (some "x"))).1).1

/-- Claim C5 run: the loaded question has no correct option (sentinel
`'N/A'`); `A` submits the literal option string `"n/a"`. -/
def c5final : World := (answerW "A" "n/a" "R" 1000 (setup2 10 none)).1

/-- Claim C6 run: single player `A` answers the only question — the lock
fires and `endCurrentQuestion` (handle 2) is scheduled. -/
def c6afterA : World × List Ev := answerW "A" "x" "R" 1000 (setup1 10 (some "x"))

/-- Claim C6 run: `endCurrentQuestion` fires, scheduling
`startNextQuestion` (handle 3). -/
def c6afterEnd : World × List Ev := fireTimerW 2 3500 c6afterA.1

/-- Claim C6 run: `startNextQuestion` fires with the question list
exhausted — the natural quiz-completion step. -/
def c6finishStep : World × List Ev := fireTimerW 3 8500 c6afterEnd.1

/-- Claim C7 run: room `R` mid-question with its countdown and deadline
timers pending. -/
def c7setup : World := setup1 10 (some "x")

/-- The room value of `setup1 10 (some "x")`. -/
def demoRoom1 : Room :=
  { hostId := "H", players := [{ id := "A", name := "Ann", score := 0 }],
    questions := [{ text := "Q1", options := ["x", "y"], correct := "x",
                    timeLimit := 10 }],
    currentIndex := 0, answeredPlayers := [], timerId := some 1,
    countdownId := some 0, quizStarted := true, maxPlayers := 10,
    questionStartTime := 0, firstCorrectAnswered := false }

/-- The room value after `A` answers correctly at t = 1 s in
`setup2 10 (some "x")`. -/
def demoRoomAfterA : Room :=
  { hostId := "H",
    players := [{ id := "A", name := "Ann", score := 1000 },
                { id := "B", name := "Bo", score := 0 }],
    questions := [{ text := "Q1", options := ["x", "y"], correct := "x",
                    timeLimit := 10 }],
    currentIndex := 0, answeredPlayers := ["A"], timerId := some 1,
    countdownId := some 0, quizStarted := true, maxPlayers := 10,
    questionStartTime := 0, firstCorrectAnswered := true }

/-- The room value of `c6afterEnd.1`: question 0 ended, `currentIndex`
advanced past the last question. -/
def c6doneRoom : Room :=
  { hostId := "H",
    players := [{ id := "A", name := "Ann", score := 1000 }],
    questions := [{ text := "Q1", options := ["x", "y"], correct := "x",
                    timeLimit := 10 }],
    currentIndex := 1, answeredPlayers := ["A"], timerId := some 1,
    countdownId := some 0, quizStarted := true, maxPlayers := 10,
    questionStartTime := 0, firstCorrectAnswered := true }

/-- Claim C8 run: a room with `maxPlayers = 2` already holding two live
players. -/
def c8setup : World :=
  let w1 := (createRoomW "H" "R" (some 2) initW).1
  let w2 := (joinRoomW "A" "Ann" "R" w1).1
  (joinRoomW "B" "Bo" "R" w2).1

/-- The room value of `c8setup`. -/
def c8room : Room :=
  { hostId := "H",
    players := [{ id := "A", name := "Ann", score := 0 },
                { id := "B", name := "Bo", score := 0 }],
    questions := [], currentIndex := 0, answeredPlayers := [],
    timerId := none, countdownId := none, quizStarted := false,
    maxPlayers := 2, questionStartTime := 0, firstCorrectAnswered := false }

/-! Helper lemmas about the registry, roster and scoring operations. -/

/-- Updating the room bound to a code changes exactly that binding. -/
theorem getRoom_updRoom (code : String) (r' : Room) (rs : List (String × Room)) :
    getRoom code (updRoom code r' rs) = (getRoom code rs).map fun _ => r' := by
  induction rs with
  | nil => rfl
  | cons e rest ih =>
    obtain ⟨c, r⟩ := e
    by_cases h : c = code
    · simp [updRoom, getRoom, h]
    · simp [updRoom, getRoom, h, ih]

/-- An added identity is a member of the set. -/
theorem mem_setAdd_self (s : String) (l : List String) : s ∈ setAdd s l := by
  unfold setAdd
  split
  · assumption
  · simp

/-- Scoring the found player changes exactly that entry's score. -/
theorem find?_addScoreFirst (sid : String) (amt : Int) (l : List Player)
    (p : Player) (h : l.find? (fun x => x.id == sid) = some p) :
    (addScoreFirst sid amt l).find? (fun x => x.id == sid) =
      some { p with score := p.score + amt } := by
  induction l with
  | nil => simp at h
  | cons q rest ih =>
    rcases hq : q.id == sid with _ | _
    · simp only [List.find?_cons, hq] at h ⊢
      simp only [addScoreFirst, hq, Bool.false_eq_true, if_false,
        List.find?_cons]
      simpa [hq] using ih h
    · simp only [List.find?_cons, hq] at h
      cases h
      simp [addScoreFirst, hq, List.find?_cons]

/-- Scoring a player does not change the roster length. -/
theorem length_addScoreFirst (sid : String) (amt : Int) (l : List Player) :
    (addScoreFirst sid amt l).length = l.length := by
  induction l with
  | nil => rfl
  | cons q rest ih =>
    by_cases hq : (q.id == sid) = true
    · simp [addScoreFirst, hq]
    · simp [addScoreFirst, hq, ih]

/-- The handler's integer score expression equals the floor of the float
expression `500 + (timeLeft / timeLimit) * 500` it was compiled from,
whenever the time limit is positive. -/
theorem scoreFor_eq_floor (elapsedMs timeLimit : ℤ) (h : 0 < timeLimit) :
    scoreFor true elapsedMs timeLimit = ⌊scoreExprRat elapsedMs timeLimit⌋ := by
  have hM : (0 : ℤ) ≤ 1000 * timeLimit := by positivity
  have hT : (timeLimit : ℚ) ≠ 0 := by exact_mod_cast h.ne'
  have htn : (((1000 * timeLimit).toNat : ℕ) : ℚ) =
      ((1000 * timeLimit : ℤ) : ℚ) := by
    rw_mod_cast [Int.toNat_of_nonneg hM]
  have hfrac : scoreExprRat elapsedMs timeLimit =
      ((500 : ℤ) : ℚ) + ((500 * (1000 * timeLimit - elapsedMs) : ℤ) : ℚ) /
        (((1000 * timeLimit).toNat : ℕ) : ℚ) := by
    rw [htn]
    unfold scoreExprRat
    push_cast
    field_simp
    ring
  rw [hfrac, Int.floor_int_add, Rat.floor_intCast_div_natCast,
    Int.toNat_of_nonneg hM]
  rfl

/-- An answer event from an identity already recorded as answered is a
complete no-op (the duplicate-submission guard, line 99). -/
theorem answerW_noop_of_mem (sid opt code : String) (now : ℤ) (w : World)
    (r : Room) (h1 : getRoom code w.rooms = some r)
    (h4 : sid ∈ r.answeredPlayers) :
    answerW sid opt code now w = (w, []) := by
  unfold answerW
  rw [h1]
  rcases hf : r.players.find? (fun p => p.id == sid) with _ | p <;>
    rcases hq : r.questions[r.currentIndex]? with _ | q <;>
      simp [hf, hq, h4]

/-- The registry after an effective answer event: exactly the submitted
room is rewritten, with the identity recorded, the score applied on a
correct answer, and the first-correct flag latched. -/
theorem answerW_rooms_effective (sid opt code : String) (now : ℤ) (w : World)
    (r : Room) (p : Player) (q : Question)
    (h1 : getRoom code w.rooms = some r)
    (h2 : r.players.find? (fun x => x.id == sid) = some p)
    (h3 : r.questions[r.currentIndex]? = some q)
    (h4 : sid ∉ r.answeredPlayers) :
    (answerW sid opt code now w).1.rooms =
      updRoom code
        { r with
          answeredPlayers := setAdd sid r.answeredPlayers,
          players := if isCorrectOpt opt q.correct then
              addScoreFirst sid
                (scoreFor r.firstCorrectAnswered (now - r.questionStartTime)
                  q.timeLimit) r.players
            else r.players,
          firstCorrectAnswered :=
            if isCorrectOpt opt q.correct then true
            else r.firstCorrectAnswered }
        w.rooms := by
  unfold answerW
  rw [h1]
  simp only [h2, h3, if_neg h4]
  split <;> split <;> rfl

/-- C2.  The two lock paths are not mutually exclusive: after the
deadline timer has already executed the lock transition for question 0
(revealing the answer and scheduling `endCurrentQuestion`), the last
player's answer arriving inside the reveal window executes the lock
transition a second time, and the two scheduled `endCurrentQuestion`
callbacks both run — the single question is ended twice and
`currentIndex` advances to 2 with only 1 question loaded. -/
theorem c2_double_lock_trace :
    c2deadlineStep.2 = [Ev.allAnswered "x"] ∧
    c2lateStep.2 = [Ev.allAnswered "x"] ∧
    c2end1.2.head? = some Ev.questionEnded ∧
    c2end2.2.head? = some Ev.questionEnded ∧
    ((getRoom "R" c2end2.1.rooms).map fun r =>
      (r.currentIndex, r.questions.length)) = some (2, 1) := by
  decide

/-- C3 counterexample.  A correct answer can be awarded a negative score:
with a 1-second time limit, `B` answers correctly 3 s after the question
started (inside the post-deadline reveal window) and is awarded
`500 + 500*(1000 - 3000)/1000 = -500`, dropping `B`'s cumulative score
from 0 to -500 — refuting both "never negative" and monotonicity. -/
theorem c3_negative_award_counterexample :
    ((getRoom "R" c3final.rooms).bind fun r =>
      (r.players.find? fun p => p.id == "B").map Player.score) =
      some (-500) := by
  decide

/-- C4.  The kick handler filters the target out of the roster before
forcing the disconnect, so the disconnect handler's `wasPlayer` check
fails and the target is never removed from `answeredPlayers`: after `A`
answers and is kicked, the room has `answeredPlayers = ["A"]` but roster
`["B"]`, violating the subset invariant; consequently `B`, the only
remaining player, answering does not trigger the all-answered lock. -/
theorem c4_kick_stale_answer_trace :
    ((getRoom "R" c4afterKick.rooms).map fun r =>
      (r.answeredPlayers, r.players.map Player.id)) =
      some (["A"], ["B"]) ∧
    (answerW "B" "x" "R" 2000 c4afterKick).2 = [] := by
  decide

/-- C5 counterexample.  The `'N/A'` sentinel stored for a question with
no correct option IS matchable: submitting the literal option `"n/a"`
compares equal after trim/case-fold, and in a full run the submitting
player is scored 1000 as first correct answerer. -/
theorem c5_sentinel_counterexample :
    isCorrectOpt "n/a" (ingestCorrect none) = true ∧
    ((getRoom "R" c5final.rooms).bind fun r =>
      (r.players.find? fun p => p.id == "A").map Player.score) =
      some 1000 := by
  decide

/-- C6 counterexample.  On natural completion (primary variant) the
session broadcasts the top-5 leaderboard and quiz-end but is NOT deleted:
the room is still registered afterwards, and a subsequent join-room event
for the same code is processed and grows the roster to 2. -/
theorem c6_no_delete_counterexample :
    c6finishStep.2 = [Ev.finalLeaderboard [⟨"A", "Ann", 1000⟩], Ev.quizEnd] ∧
    (getRoom "R" c6finishStep.1.rooms).isSome = true ∧
    ((getRoom "R" (joinRoomW "B" "Bo" "R" c6finishStep.1).1.rooms).map
      fun r => r.players.length) = some 2 := by
  decide

/-- C7 counterexample.  Host disconnect deletes the session but cancels
no timers: the room's pending countdown interval and deadline timeout are
both still scheduled afterwards. -/
theorem c7_timers_not_cancelled_counterexample :
    (disconnectW "H" c7setup).1.rooms = [] ∧
    (disconnectW "H" c7setup).1.timers =
      [(0, TimerAction.countdown "R" 10),
       (1, TimerAction.deadline "R" "x" 0)] := by
  decide

/-- A code that is bound by no registry entry looks up to nothing. -/
theorem getRoom_eq_none_of_not_mem (code : String) (rs : List (String × Room))
    (h : code ∉ rs.map Prod.fst) : getRoom code rs = none := by
  induction rs with
  | nil => rfl
  | cons e rest ih =>
    obtain ⟨c, r⟩ := e
    simp only [List.map_cons, List.mem_cons] at h
    push_neg at h
    have hc : ¬ c = code := fun hcc => h.1 hcc.symm
    simp only [getRoom, if_neg hc]
    exact ih h.2

/-- The disconnect sweep introduces no new room codes. -/
theorem keys_disconnectRooms_subset (sid c : String)
    (rs : List (String × Room))
    (h : c ∈ (disconnectRooms sid rs).1.map Prod.fst) :
    c ∈ rs.map Prod.fst := by
  induction rs with
  | nil => simp [disconnectRooms] at h
  | cons e rest ih =>
    obtain ⟨ck, r⟩ := e
    unfold disconnectRooms at h
    by_cases hh : r.hostId = sid
    · rw [if_pos hh] at h
      exact List.mem_cons_of_mem _ (ih h)
    · rw [if_neg hh] at h
      rcases hf : r.players.find? (fun p => p.id == sid) with _ | p <;>
          rw [hf] at h <;>
          simp only [List.map_cons, List.mem_cons] at h ⊢ <;>
          rcases h with h | h
      · exact Or.inl h
      · exact Or.inr (ih h)
      · exact Or.inl h
      · exact Or.inr (ih h)

/-- When the disconnecting identity hosts the room bound to `code` (and
codes are unique), the disconnect sweep removes that binding. -/
theorem disconnectRooms_host_deleted (sid code : String)
    (rs : List (String × Room)) (r : Room)
    (hnd : (rs.map Prod.fst).Nodup)
    (h : getRoom code rs = some r) (hh : r.hostId = sid) :
    getRoom code (disconnectRooms sid rs).1 = none := by
  induction rs with
  | nil => simp [getRoom] at h
  | cons e rest ih =>
    obtain ⟨c, rr⟩ := e
    simp only [List.map_cons, List.nodup_cons] at hnd
    by_cases hc : c = code
    · subst hc
      have hr : rr = r := by simpa [getRoom] using h
      subst hr
      unfold disconnectRooms
      rw [if_pos hh]
      exact getRoom_eq_none_of_not_mem _ _
        (fun hmem => hnd.1 (keys_disconnectRooms_subset sid c rest hmem))
    · simp only [getRoom, if_neg hc] at h
      have hrec := ih hnd.2 h
      unfold disconnectRooms
      by_cases hhost : rr.hostId = sid
      · rw [if_pos hhost]
        exact hrec
      · rw [if_neg hhost]
        rcases hf : rr.players.find? (fun p => p.id == sid) with _ | p <;>
            rw [hf] <;> simp only [getRoom, if_neg hc] <;> exact hrec

/-- A freshly appended timer with an unused handle is found. -/
theorem getTimer_append_of_none (i : Nat) (a : TimerAction)
    (ts : List (Nat × TimerAction)) (h : getTimer i ts = none) :
    getTimer i (ts ++ [(i, a)]) = some a := by
  induction ts with
  | nil => simp [getTimer]
  | cons e rest ih =>
    obtain ⟨j, b⟩ := e
    by_cases hj : j = i
    · simp only [getTimer, if_pos hj] at h
      cases h
    · simp only [List.cons_append, getTimer, if_neg hj] at h ⊢
      exact ih h

/-- `delete rooms[code]` removes the binding. -/
theorem getRoom_delRoom (code : String) (rs : List (String × Room)) :
    getRoom code (delRoom code rs) = none := by
  induction rs with
  | nil => rfl
  | cons e rest ih =>
    obtain ⟨c, r⟩ := e
    by_cases hc : c = code
    · simpa [delRoom, hc] using ih
    · simpa [delRoom, getRoom, hc] using ih

/-- A non-first correct answer delivered no later than the deadline is
awarded at most 1000 points (the first-correct award is exactly 1000). -/
theorem scoreFor_le_1000 (first : Bool) (elapsedMs timeLimit : ℤ)
    (hTL : 0 < timeLimit) (hdt : 0 ≤ elapsedMs) :
    scoreFor first elapsedMs timeLimit ≤ 1000 := by
  unfold scoreFor
  rcases first with _ | _
  · simp
  · simp only [if_true]
    have hM : (0 : ℤ) < 1000 * timeLimit := by positivity
    have h1 : 500 * (1000 * timeLimit - elapsedMs) ≤
        500 * (1000 * timeLimit) := by
      linarith
    have h2 : 500 * (1000 * timeLimit - elapsedMs) / (1000 * timeLimit) ≤
        500 * (1000 * timeLimit) / (1000 * timeLimit) :=
      Int.ediv_le_ediv hM h1
    have h3 : (500 : ℤ) * (1000 * timeLimit) / (1000 * timeLimit) = 500 :=
      Int.mul_ediv_cancel 500 hM.ne'
    linarith

/-- The award is non-negative as long as the answer arrives within twice
the time limit after the question started. -/
theorem scoreFor_nonneg (first : Bool) (elapsedMs timeLimit : ℤ)
    (hTL : 0 < timeLimit) (hdt : elapsedMs ≤ 2 * (1000 * timeLimit)) :
    0 ≤ scoreFor first elapsedMs timeLimit := by
  unfold scoreFor
  rcases first with _ | _
  · simp
  · simp only [if_true]
    have hM : (0 : ℤ) < 1000 * timeLimit := by positivity
    have h1 : (-500) * (1000 * timeLimit) ≤
        500 * (1000 * timeLimit - elapsedMs) := by
      linarith
    have h2 : (-500) * (1000 * timeLimit) / (1000 * timeLimit) ≤
        500 * (1000 * timeLimit - elapsedMs) / (1000 * timeLimit) :=
      Int.ediv_le_ediv hM h1
    have h3 : (-500 : ℤ) * (1000 * timeLimit) / (1000 * timeLimit) = -500 :=
      Int.mul_ediv_cancel (-500) hM.ne'
    linarith

/-- Awarding a non-negative amount never decreases any roster entry. -/
theorem forall₂_addScoreFirst (sid : String) (amt : Int) (l : List Player)
    (h : 0 ≤ amt) :
    List.Forall₂ (fun a b => a.id = b.id ∧ a.score ≤ b.score) l
      (addScoreFirst sid amt l) := by
  induction l with
  | nil => exact List.Forall₂.nil
  | cons q rest ih =>
    by_cases hq : (q.id == sid) = true
    · simp only [addScoreFirst, hq, if_true]
      refine List.Forall₂.cons ⟨rfl, ?_⟩
        (List.forall₂_same.mpr fun a _ => ⟨rfl, le_refl _⟩)
      show q.score ≤ q.score + amt
      linarith
    · simp only [addScoreFirst, hq, if_false]
      exact List.Forall₂.cons ⟨rfl, le_refl _⟩ ih

/-- C1.  An answer whose normalized option equals the question's
normalized correct option scores a flat 1000 and latches
`firstCorrectAnswered` when it is the first correct answer of the
question; every later correct answer scores exactly
`floor(500 + (remaining/timeLimit) * 500)` with
`remaining = timeLimit - elapsed`; an incorrect answer leaves every
score unchanged. -/
theorem c1_answer_scoring (w : World) (code sid opt : String) (now : ℤ)
    (r : Room) (p : Player) (q : Question)
    (h1 : getRoom code w.rooms = some r)
    (h2 : r.players.find? (fun x => x.id == sid) = some p)
    (h3 : r.questions[r.currentIndex]? = some q)
    (h4 : sid ∉ r.answeredPlayers) :
    ∃ r2, getRoom code (answerW sid opt code now w).1.rooms = some r2 ∧
      (isCorrectOpt opt q.correct = true → r.firstCorrectAnswered = false →
        r2.players.find? (fun x => x.id == sid) =
          some { p with score := p.score + 1000 } ∧
        r2.firstCorrectAnswered = true) ∧
      (isCorrectOpt opt q.correct = true → r.firstCorrectAnswered = true →
       0 < q.timeLimit →
        r2.players.find? (fun x => x.id == sid) =
          some { p with score := p.score +
            ⌊scoreExprRat (now - r.questionStartTime) q.timeLimit⌋ }) ∧
      (isCorrectOpt opt q.correct = false → r2.players = r.players) := by
  have hrooms := answerW_rooms_effective sid opt code now w r p q h1 h2 h3 h4
  refine ⟨_, by rw [hrooms, getRoom_updRoom, h1]; rfl, ?_, ?_, ?_⟩
  · intro hc hf
    constructor
    · simp only [hc, if_true]
      have hs : scoreFor r.firstCorrectAnswered (now - r.questionStartTime)
          q.timeLimit = 1000 := by
        rw [hf]; rfl
      rw [hs]
      exact find?_addScoreFirst sid 1000 r.players p h2
    · simp [hc]
  · intro hc hf hTL
    simp only [hc, if_true]
    have hs : scoreFor r.firstCorrectAnswered (now - r.questionStartTime)
        q.timeLimit =
        ⌊scoreExprRat (now - r.questionStartTime) q.timeLimit⌋ := by
      rw [hf]
      exact scoreFor_eq_floor _ _ hTL
    rw [hs]
    exact find?_addScoreFirst sid _ r.players p h2
  · intro hc
    simp [hc]

/-- C1 witness: `A` answers `"x"` correctly at t = 1 s in a fresh
two-player room and, as first correct answerer, is scored exactly 1000. -/
theorem c1_answer_scoring_witness :
    ∃ r2, getRoom "R"
        (answerW "A" "x" "R" 1000 (setup2 10 (some "x"))).1.rooms =
        some r2 ∧
      (isCorrectOpt "x" "x" = true → demoRoom.firstCorrectAnswered = false →
        r2.players.find? (fun x => x.id == "A") =
          some ⟨"A", "Ann", (0 : ℤ) + 1000⟩ ∧
        r2.firstCorrectAnswered = true) ∧
      (isCorrectOpt "x" "x" = true → demoRoom.firstCorrectAnswered = true →
       (0 : ℤ) < 10 →
        r2.players.find? (fun x => x.id == "A") =
          some ⟨"A", "Ann", (0 : ℤ) + ⌊scoreExprRat (1000 - 0) 10⌋⟩) ∧
      (isCorrectOpt "x" "x" = false → r2.players = demoRoom.players) :=
  c1_answer_scoring (setup2 10 (some "x")) "R" "A" "x" 1000 demoRoom
    ⟨"A", "Ann", 0⟩ ⟨"Q1", ["x", "y"], "x", 10⟩
    (by decide) (by decide) (by decide) (by decide)

/-- C3 (amended).  Every award is at most 1000 when the answer does not
predate the question start, and is non-negative whenever the answer
arrives within twice the time limit; under those timing conditions the
answer handler never decreases any player's cumulative score; a joining
player starts at score 0. -/
theorem c3_award_bounds :
    (∀ (first : Bool) (elapsedMs timeLimit : ℤ), 0 < timeLimit →
      0 ≤ elapsedMs → scoreFor first elapsedMs timeLimit ≤ 1000) ∧
    (∀ (first : Bool) (elapsedMs timeLimit : ℤ), 0 < timeLimit →
      elapsedMs ≤ 2 * (1000 * timeLimit) →
      0 ≤ scoreFor first elapsedMs timeLimit) ∧
    (∀ (w : World) (code sid opt : String) (now : ℤ) (r r2 : Room)
      (q : Question),
      getRoom code w.rooms = some r →
      r.questions[r.currentIndex]? = some q →
      0 < q.timeLimit →
      r.questionStartTime ≤ now →
      now - r.questionStartTime ≤ 2 * (1000 * q.timeLimit) →
      getRoom code (answerW sid opt code now w).1.rooms = some r2 →
      List.Forall₂ (fun a b => a.id = b.id ∧ a.score ≤ b.score)
        r.players r2.players) ∧
    (∀ (sid nm : String) (live : List String) (r : Room),
      ¬ (r.players.filter fun p => live.contains p.id).length ≥
        r.maxPlayers →
      ((r.players.filter fun p => live.contains p.id).any
        fun p => normName p.name == normName nm) = false →
      (joinCore sid nm live r).1.players =
        (r.players.filter fun p => live.contains p.id) ++
          [⟨sid, nm, 0⟩]) := by
  refine ⟨scoreFor_le_1000, scoreFor_nonneg, ?_, ?_⟩
  · intro w code sid opt now r r2 q h1 h3 hTL hnow hbound h2
    rcases hf : r.players.find? (fun p => p.id == sid) with _ | p
    · have e : answerW sid opt code now w = (w, []) := by
        unfold answerW
        rw [h1]
        rcases hq2 : r.questions[r.currentIndex]? with _ | q2 <;>
          simp [hf, hq2]
      rw [e, h1] at h2
      cases h2
      exact List.forall₂_same.mpr fun a _ => ⟨rfl, le_refl _⟩
    · by_cases ha : sid ∈ r.answeredPlayers
      · rw [answerW_noop_of_mem sid opt code now w r h1 ha, h1] at h2
        cases h2
        exact List.forall₂_same.mpr fun a _ => ⟨rfl, le_refl _⟩
      · have hrooms := answerW_rooms_effective sid opt code now w r p q
          h1 hf h3 ha
        rw [hrooms, getRoom_updRoom, h1, Option.map_some'] at h2
        cases h2
        by_cases hc : isCorrectOpt opt q.correct = true
        · simp only [hc, if_true]
          exact forall₂_addScoreFirst _ _ _
            (scoreFor_nonneg _ _ _ hTL hbound)
        · simp only [Bool.not_eq_true] at hc
          simp only [hc, Bool.false_eq_true, if_false]
          exact List.forall₂_same.mpr fun a _ => ⟨rfl, le_refl _⟩
  · intro sid nm live r hfull hdup
    unfold joinCore
    have hdup2 : ¬ (((r.players.filter fun p => live.contains p.id).any
        fun p => normName p.name == normName nm) = true) := by
      rw [hdup]
      simp
    rw [if_neg hfull, if_neg hdup2]

/-- C3 witness: concrete award bounds, a concrete monotone score update
(`A` scoring 1000 in the two-player room), and a concrete join at
score 0. -/
theorem c3_award_bounds_witness :
    scoreFor true 5000 10 ≤ 1000 ∧
    0 ≤ scoreFor true 15000 10 ∧
    List.Forall₂ (fun a b => a.id = b.id ∧ a.score ≤ b.score)
      demoRoom.players demoRoomAfterA.players ∧
    (joinCore "A" "Ann" ["H", "A", "B"] (freshRoom "H" (some 2))).1.players =
      ((freshRoom "H" (some 2)).players.filter
        fun p => ["H", "A", "B"].contains p.id) ++ [⟨"A", "Ann", 0⟩] :=
  ⟨c3_award_bounds.1 true 5000 10 (by decide) (by decide),
   c3_award_bounds.2.1 true 15000 10 (by decide) (by decide),
   c3_award_bounds.2.2.1 (setup2 10 (some "x")) "R" "A" "x" 1000 demoRoom
     demoRoomAfterA ⟨"Q1", ["x", "y"], "x", 10⟩ (by decide) (by decide)
     (by decide) (by decide) (by decide) (by decide),
   c3_award_bounds.2.2.2 "A" "Ann" ["H", "A", "B"] (freshRoom "H" (some 2))
     (by decide) (by decide)⟩

/-- C5 (amended).  The stored sentinel for a question with no correct
option is `'N/A'`, and a submitted option compares equal to it exactly
when the option's trimmed, case-folded form is `"n/a"` — every other
submission never matches. -/
theorem c5_sentinel_match_iff (opt : String) :
    isCorrectOpt opt (ingestCorrect none) = true ↔ normOpt opt = "n/a" := by
  have hNA : normOpt "N/A" = "n/a" := by decide
  show (normOpt opt == normOpt "N/A") = true ↔ normOpt opt = "n/a"
  rw [hNA]
  exact beq_iff_eq

/-- C6 (amended).  On natural completion the primary variant broadcasts
the top-5 leaderboard and quiz-end but leaves the session registered (the
registry is entirely unchanged); only the second variant's
`endCurrentQuestion`, via its delayed finalization, broadcasts the final
leaderboard and quiz-end and deletes the session. -/
theorem c6_finish_behaviour (w w2 : World) (code code2 : String) (now : ℤ)
    (r : Room) (r2 : Room) :
    ((getRoom code w.rooms = some r → r.currentIndex ≥ r.questions.length →
      startNextQuestionW code now w =
        (w, [Ev.finalLeaderboard ((sortByScoreDesc r.players).take 5),
             Ev.quizEnd]))) ∧
    (getRoom code2 w2.rooms = some r2 →
     r2.currentIndex + 1 ≥ r2.questions.length →
     getTimer w2.nextTimerId w2.timers = none →
      getRoom code2
        (fireTimerW w2.nextTimerId now
          (endCurrentQuestionV2 code2 w2).1).1.rooms = none ∧
      (fireTimerW w2.nextTimerId now (endCurrentQuestionV2 code2 w2).1).2 =
        [Ev.finalLeaderboard (sortByScoreDesc r2.players), Ev.quizEnd]) := by
  constructor
  · intro h1 h2
    unfold startNextQuestionW
    rw [h1]
    simp only [if_pos h2]
  · intro h1 h2 h3
    have hstep : endCurrentQuestionV2 code2 w2 =
        ({ w2 with
            rooms := updRoom code2
              { r2 with currentIndex := r2.currentIndex + 1 } w2.rooms,
            timers := w2.timers ++
              [(w2.nextTimerId,
                TimerAction.delayedEnd code2 (sortByScoreDesc r2.players))],
            nextTimerId := w2.nextTimerId + 1 },
         [Ev.questionEnded, Ev.leaderboard (sortByScoreDesc r2.players)]) := by
      unfold endCurrentQuestionV2
      rw [h1]
      simp only [if_pos h2]
    rw [hstep]
    have hfire : getTimer w2.nextTimerId
        (w2.timers ++
          [(w2.nextTimerId,
            TimerAction.delayedEnd code2 (sortByScoreDesc r2.players))]) =
        some (TimerAction.delayedEnd code2 (sortByScoreDesc r2.players)) :=
      getTimer_append_of_none _ _ _ h3
    unfold fireTimerW
    rw [hfire]
    exact ⟨getRoom_delRoom code2 _, rfl⟩

/-- C6 witness: the finished one-player room broadcasting its top-5 and
quiz-end without being deleted (primary variant), and the same room being
deleted by the second variant's delayed finalization. -/
theorem c6_finish_behaviour_witness :
    (startNextQuestionW "R" 9000 c6afterEnd.1 =
      (c6afterEnd.1,
       [Ev.finalLeaderboard ((sortByScoreDesc c6doneRoom.players).take 5),
        Ev.quizEnd])) ∧
    (getRoom "R"
        (fireTimerW (setup1 10 (some "x")).nextTimerId 9000
          (endCurrentQuestionV2 "R" (setup1 10 (some "x"))).1).1.rooms =
      none ∧
     (fireTimerW (setup1 10 (some "x")).nextTimerId 9000
        (endCurrentQuestionV2 "R" (setup1 10 (some "x"))).1).2 =
       [Ev.finalLeaderboard (sortByScoreDesc demoRoom1.players),
        Ev.quizEnd]) :=
  ⟨(c6_finish_behaviour c6afterEnd.1 (setup1 10 (some "x")) "R" "R" 9000
      c6doneRoom demoRoom1).1 (by decide) (by decide),
   (c6_finish_behaviour c6afterEnd.1 (setup1 10 (some "x")) "R" "R" 9000
      c6doneRoom demoRoom1).2 (by decide) (by decide) (by decide)⟩

/-- C7 (amended).  Host disconnect deletes the session from the registry
but cancels no pending timers (the timer list is untouched); afterwards
every client event referencing the dead code leaves the world unchanged —
join-room answers with a room-not-found error, every other handler is a
complete silent no-op. -/
theorem c7_host_disconnect_behaviour (w w' : World)
    (code code' sid sid2 nm opt pid : String) (now : ℤ)
    (qs : List QuestionIn) (r : Room) :
    ((getRoom code w.rooms = some r → r.hostId = sid →
      (w.rooms.map Prod.fst).Nodup →
      getRoom code (disconnectW sid w).1.rooms = none ∧
      (disconnectW sid w).1.timers = w.timers)) ∧
    (getRoom code' w'.rooms = none →
      joinRoomW sid2 nm code' w' =
        (w', [Ev.roomError "Room does not exist."]) ∧
      answerW sid2 opt code' now w' = (w', []) ∧
      sendQuestionsW code' qs w' = (w', []) ∧
      startQuizW code' now w' = (w', []) ∧
      kickPlayerW code' pid w' = (w', []) ∧
      endQuizW code' w' = (w', []) ∧
      startNextQuestionW code' now w' = (w', []) ∧
      endCurrentQuestionW code' w' = (w', [])) := by
  constructor
  · intro h1 hh hnd
    refine ⟨?_, rfl⟩
    exact disconnectRooms_host_deleted sid code w.rooms r hnd h1 hh
  · intro h
    refine ⟨?_, ?_, ?_, ?_, ?_, ?_, ?_, ?_⟩
    · unfold joinRoomW; rw [h]
    · unfold answerW; rw [h]
    · unfold sendQuestionsW; rw [h]
    · unfold startQuizW; rw [h]
    · unfold kickPlayerW; rw [h]
    · unfold endQuizW; rw [h]
    · unfold startNextQuestionW; rw [h]
    · unfold endCurrentQuestionW; rw [h]

/-- C7 witness: the concrete mid-question room — after the host drops,
the room is gone, the timers are still pending, and every handler on the
dead code returns the world unchanged. -/
theorem c7_host_disconnect_behaviour_witness :
    (getRoom "R" (disconnectW "H" c7setup).1.rooms = none ∧
     (disconnectW "H" c7setup).1.timers = c7setup.timers) ∧
    (joinRoomW "A" "Zed" "R" (disconnectW "H" c7setup).1 =
       ((disconnectW "H" c7setup).1,
        [Ev.roomError "Room does not exist."]) ∧
     answerW "A" "x" "R" 0 (disconnectW "H" c7setup).1 =
       ((disconnectW "H" c7setup).1, []) ∧
     sendQuestionsW "R" (demoQ 10 (some "x")) (disconnectW "H" c7setup).1 =
       ((disconnectW "H" c7setup).1, []) ∧
     startQuizW "R" 0 (disconnectW "H" c7setup).1 =
       ((disconnectW "H" c7setup).1, []) ∧
     kickPlayerW "R" "A" (disconnectW "H" c7setup).1 =
       ((disconnectW "H" c7setup).1, []) ∧
     endQuizW "R" (disconnectW "H" c7setup).1 =
       ((disconnectW "H" c7setup).1, []) ∧
     startNextQuestionW "R" 0 (disconnectW "H" c7setup).1 =
       ((disconnectW "H" c7setup).1, []) ∧
     endCurrentQuestionW "R" (disconnectW "H" c7setup).1 =
       ((disconnectW "H" c7setup).1, [])) :=
  ⟨(c7_host_disconnect_behaviour c7setup (disconnectW "H" c7setup).1
      "R" "R" "H" "A" "Zed" "x" "A" 0 (demoQ 10 (some "x")) demoRoom1).1
      (by decide) (by decide) (by decide),
   (c7_host_disconnect_behaviour c7setup (disconnectW "H" c7setup).1
      "R" "R" "H" "A" "Zed" "x" "A" 0 (demoQ 10 (some "x")) demoRoom1).2
      (by decide)⟩

/-- C8.  For a join on an existing room whose roster is all live: a full
roster rejects with the room-full error and the roster is unchanged; a
live duplicate normalized name rejects with the name-taken error and the
roster is unchanged; otherwise the new player is appended with score 0
and the updated roster plus maxPlayers are broadcast. -/
theorem c8_join_checks (w : World) (code sid nm : String) (r : Room)
    (h1 : getRoom code w.rooms = some r)
    (h2 : sid ≠ r.hostId)
    (h3 : ∀ p ∈ r.players, w.live.contains p.id = true) :
    (r.players.length ≥ r.maxPlayers →
      (joinRoomW sid nm code w).2 = [Ev.roomFull "Room is full."] ∧
      getRoom code (joinRoomW sid nm code w).1.rooms = some r) ∧
    (r.players.length < r.maxPlayers →
     r.players.any (fun p => normName p.name == normName nm) = true →
      (joinRoomW sid nm code w).2 = [Ev.roomError "Name already taken."] ∧
      getRoom code (joinRoomW sid nm code w).1.rooms = some r) ∧
    (r.players.length < r.maxPlayers →
     r.players.any (fun p => normName p.name == normName nm) = false →
      (joinRoomW sid nm code w).2 =
        [Ev.lobbyUpdate (r.players ++ [⟨sid, nm, 0⟩]) r.maxPlayers] ∧
      getRoom code (joinRoomW sid nm code w).1.rooms =
        some { r with players := r.players ++ [⟨sid, nm, 0⟩] }) := by
  have hpr : r.players.filter (fun p => w.live.contains p.id) = r.players :=
    List.filter_eq_self.mpr h3
  have hjoin : joinRoomW sid nm code w =
      ({ w with rooms := updRoom code (joinCore sid nm w.live r).1 w.rooms },
       (joinCore sid nm w.live r).2) := by
    unfold joinRoomW
    rw [h1]
    simp only [if_neg h2]
  refine ⟨?_, ?_, ?_⟩
  · intro hfull
    have hc : joinCore sid nm w.live r =
        ({ r with players := r.players }, [Ev.roomFull "Room is full."]) := by
      unfold joinCore
      rw [hpr, if_pos hfull]
    rw [hjoin, hc]
    refine ⟨rfl, ?_⟩
    rw [getRoom_updRoom, h1]
    rfl
  · intro hlt hdup
    have hc : joinCore sid nm w.live r =
        ({ r with players := r.players },
         [Ev.roomError "Name already taken."]) := by
      unfold joinCore
      rw [hpr, if_neg (by omega), if_pos hdup]
    rw [hjoin, hc]
    refine ⟨rfl, ?_⟩
    rw [getRoom_updRoom, h1]
    rfl
  · intro hlt hdup
    have hc : joinCore sid nm w.live r =
        ({ r with players := r.players ++ [⟨sid, nm, 0⟩] },
         [Ev.lobbyUpdate (r.players ++ [⟨sid, nm, 0⟩]) r.maxPlayers]) := by
      unfold joinCore
      rw [hpr, if_neg (by omega)]
      simp [hdup]
    rw [hjoin, hc]
    refine ⟨rfl, ?_⟩
    rw [getRoom_updRoom, h1]
    rfl

/-- C8 witness: the spec's own example — a room with `maxPlayers = 2`
holding two live players rejects a third join with the room-full error
and keeps exactly those 2 players. -/
theorem c8_join_checks_witness :
    c8room.players.length ≥ c8room.maxPlayers ∧
    ((joinRoomW "C" "Cy" "R" c8setup).2 = [Ev.roomFull "Room is full."] ∧
     getRoom "R" (joinRoomW "C" "Cy" "R" c8setup).1.rooms = some c8room) :=
  ⟨by decide,
   (c8_join_checks c8setup "R" "C" "Cy" c8room
      (by decide) (by decide) (by decide)).1 (by decide)⟩

/-- C9.  A second answer event from the same identity for the same
question is a complete no-op: the resulting world (scores,
answeredIdentities, phase, timers) is exactly the world after the first
submission, and nothing is broadcast — a duplicate never double-scores. -/
theorem c9_duplicate_answer_noop (w : World) (sid opt1 opt2 code : String)
    (now1 now2 : ℤ) :
    answerW sid opt2 code now2 (answerW sid opt1 code now1 w).1 =
      ((answerW sid opt1 code now1 w).1, []) := by
  rcases h1 : getRoom code w.rooms with _ | r
  · have e1 : answerW sid opt1 code now1 w = (w, []) := by
      unfold answerW; rw [h1]
    rw [e1]
    show answerW sid opt2 code now2 w = (w, [])
    unfold answerW; rw [h1]
  · rcases hf : r.players.find? (fun p => p.id == sid) with _ | p
    · have e1 : answerW sid opt1 code now1 w = (w, []) := by
        unfold answerW
        rw [h1]
        rcases hq : r.questions[r.currentIndex]? with _ | q <;> simp [hf, hq]
      rw [e1]
      show answerW sid opt2 code now2 w = (w, [])
      unfold answerW
      rw [h1]
      rcases hq : r.questions[r.currentIndex]? with _ | q <;> simp [hf, hq]
    · rcases hq : r.questions[r.currentIndex]? with _ | q
      · have e1 : answerW sid opt1 code now1 w = (w, []) := by
          unfold answerW; rw [h1]; simp [hf, hq]
        rw [e1]
        show answerW sid opt2 code now2 w = (w, [])
        unfold answerW; rw [h1]; simp [hf, hq]
      · by_cases ha : sid ∈ r.answeredPlayers
        · rw [answerW_noop_of_mem sid opt1 code now1 w r h1 ha]
          exact answerW_noop_of_mem sid opt2 code now2 w r h1 ha
        · have hrooms := answerW_rooms_effective sid opt1 code now1 w r p q
            h1 hf hq ha
          refine answerW_noop_of_mem sid opt2 code now2 _
            ({ r with
              answeredPlayers := setAdd sid r.answeredPlayers,
              players := if isCorrectOpt opt1 q.correct then
                  addScoreFirst sid
                    (scoreFor r.firstCorrectAnswered
                      (now1 - r.questionStartTime) q.timeLimit) r.players
                else r.players,
              firstCorrectAnswered :=
                if isCorrectOpt opt1 q.correct then true
                else r.firstCorrectAnswered }) ?_ ?_
          · rw [hrooms, getRoom_updRoom, h1]; rfl
          · exact mem_setAdd_self sid r.answeredPlayers

/-- C10.  The join handler has no quiz-started or phase guard:
`joinCore` is oblivious to the `quizStarted` flag; concretely, a join is
accepted while a question is active, and the joined player immediately
counts in the all-answered condition — the sole original player answering
locks the question when no one joined, but does not after a mid-question
join. -/
theorem c10_join_ignores_phase :
    (∀ (sid nm : String) (live : List String) (r : Room) (b : Bool),
      joinCore sid nm live { r with quizStarted := b } =
        ({ (joinCore sid nm live r).1 with quizStarted := b },
         (joinCore sid nm live r).2)) ∧
    ((getRoom "R" (setup1 10 (some "x")).rooms).map Room.quizStarted =
      some true) ∧
    ((joinRoomW "B" "Bo" "R" (setup1 10 (some "x"))).2 =
      [Ev.lobbyUpdate [⟨"A", "Ann", 0⟩, ⟨"B", "Bo", 0⟩] 10]) ∧
    ((answerW "A" "x" "R" 1000 (setup1 10 (some "x"))).2 =
      [Ev.allAnswered "x"]) ∧
    ((answerW "A" "x" "R" 1000
        (joinRoomW "B" "Bo" "R" (setup1 10 (some "x"))).1).2 = []) := by
  refine ⟨?_, by decide, by decide, by decide, by decide⟩
  intro sid nm live r b
  unfold joinCore
  dsimp only
  by_cases hfull :
      (r.players.filter fun p => live.contains p.id).length ≥ r.maxPlayers
  · rw [if_pos hfull, if_pos hfull]
  · rw [if_neg hfull, if_neg hfull]
    by_cases hdup :
        ((r.players.filter fun p => live.contains p.id).any
          fun p => normName p.name == normName nm) = true
    · rw [if_pos hdup, if_pos hdup]
    · rw [if_neg hdup, if_neg hdup]

end QuizServer
